import Mathlib

/-!
Shallow embedding of the verification-resolution subsystem of the repository
(`src/lib/verification.ts`, `src/lib/nixUnfree.ts`, `src/hooks/useVerification.ts`).

Network interactions are modelled by oracles: a function from the request key
(page number for the Flathub collection endpoint, canonical snap name for the
Snapcraft info endpoint) to the outcome of that HTTP interaction.  Mutable
module-level state (`flathubVerifiedCache`, `snapVerifiedCache`) is threaded
explicitly; JavaScript `Set`/`Map` objects are modelled as insertion-ordered
lists with the corresponding lookup/overwrite semantics.
-/

namespace Tuxmate

/-- One element of the `hits` array of a Flathub collection response
(`FlathubVerificationResponse`).  A missing `app_id` is modelled as `""`
(falsy in JavaScript, exactly like an absent field in the guard
`hit.verification_verified && hit.app_id`); a missing
`verification_verified` is modelled as `false`. -/
structure FlathubHit where
  app_id : String
  verification_verified : Bool
deriving DecidableEq, Repr

/-- Outcome of one HTTP interaction with the Flathub collection endpoint.

* `transportError`: the `fetch` or `response.json()` call threw (network
  failure, 10 s timeout abort, malformed JSON, or a payload whose `hits`
  field is not iterable) — in the source this exception escapes the `while`
  loop and is caught by the surrounding `try/catch`.
* `httpError`: `response.ok` was false (non-2xx status) — the source logs a
  warning and `break`s out of the loop.
* `ok hits totalPages`: a parsed JSON body; `totalPages = none` models a
  missing or non-numeric `totalPages` field, for which the JavaScript
  comparison `page < data.totalPages` evaluates to `false`. -/
inductive PageResult where
  | transportError
  | httpError
  | ok (hits : List FlathubHit) (totalPages : Option Int)
deriving DecidableEq, Repr

/-- Result of the pagination loop of `fetchFlathubVerifiedApps`: the
accumulated verified app ids (`verifiedApps`), the log of page requests
issued as `(page, per_page)` pairs, and whether a transport error was caught
by the surrounding `try/catch`. -/
structure BulkFetchOutcome where
  acc : List String
  reqs : List (Nat × Nat)
  caught : Bool
deriving DecidableEq, Repr

/-- `Set.add` on an insertion-ordered set modelled as a duplicate-free list. -/
def addToSet (s : List String) (x : String) : List String :=
  if s.contains x then s else s ++ [x]

/-- The body of the `for (const hit of data.hits)` loop: add `hit.app_id`
when `hit.verification_verified && hit.app_id` is truthy. -/
def addHits (s : List String) (hits : List FlathubHit) : List String :=
  hits.foldl (fun acc h =>
    if h.verification_verified && !(h.app_id == "") then addToSet acc h.app_id else acc) s

/-- The `while (hasMore)` pagination loop of `fetchFlathubVerifiedApps`.

`fuel` is a structural-recursion encoding of the source's hard page cap: the
loop is always entered with `page + fuel = 11` (i.e. `fuel = 10`, `page = 1`
at the single call site), the guard `page + 1 > 10` mirrors the source's
`page++; if (page > 10) break;`, and every recursive call preserves the
invariant, so the `fuel = 0` branch is unreachable from the call site.  Each
iteration issues one request `(page, 250)` (logged even when it fails), and
the JavaScript comparison `page < data.totalPages` is `false` when
`totalPages` is absent. -/
def flathubLoop (net : Nat → PageResult) :
    Nat → Nat → Bool → List String → List (Nat × Nat) → BulkFetchOutcome
  | fuel, page, hasMore, acc, reqs =>
    if hasMore then
      match net page with
      | .transportError => ⟨acc, reqs ++ [(page, 250)], true⟩
      | .httpError => ⟨acc, reqs ++ [(page, 250)], false⟩
      | .ok hits tp =>
        let acc' := addHits acc hits
        let hasMore' := match tp with
          | some t => decide ((page : Int) < t)
          | none => false
        if page + 1 > 10 then ⟨acc', reqs ++ [(page, 250)], false⟩
        else
          match fuel with
          | 0 => ⟨acc', reqs ++ [(page, 250)], false⟩
          | fuel' + 1 => flathubLoop net fuel' (page + 1) hasMore' acc' (reqs ++ [(page, 250)])
    else ⟨acc, reqs, false⟩

/-- `fetchFlathubVerifiedApps`, acting on the module-level
`flathubVerifiedCache` (`none` = the initial `null`).  Returns the resulting
set, the new cache, and the log of page requests issued.  If the cache is
populated it is returned immediately with no I/O; otherwise the pagination
loop runs (`page = 1`, `hasMore = true`) and — on success, HTTP error and
caught transport error alike — the accumulated set is stored in the cache
and returned. -/
def fetchFlathubVerifiedApps (net : Nat → PageResult) (cache : Option (List String)) :
    List String × Option (List String) × List (Nat × Nat) :=
  match cache with
  | some s => (s, some s, [])
  | none =>
    let out := flathubLoop net 10 1 true [] []
    (out.acc, some out.acc, out.reqs)

/-- The bulk fetch as awaited by the caller; `Except` models promise
rejection.  The source wraps its entire network loop in `try/catch` whose
handler only logs a warning, and the final cache assignment and `return`
statement are outside the `try`, so the async function always resolves —
hence the value is always `Except.ok`.  The hook's `catch` branch matches on
this channel. -/
def fetchFlathubVerifiedAppsEx (net : Nat → PageResult) (cache : Option (List String)) :
    Except Unit (List String × Option (List String) × List (Nat × Nat)) :=
  Except.ok (fetchFlathubVerifiedApps net cache)

/-- `isFlathubVerified`: `flathubVerifiedCache?.has(appId) ?? false`. -/
def isFlathubVerified (cache : Option (List String)) (appId : String) : Bool :=
  match cache with
  | some s => s.contains appId
  | none => false

/-- The canonical snap name: `snapName.split(' ')[0]`.  For a split on the
single-character separator `' '`, the first element of the resulting array
is exactly the prefix of the string before its first space (the whole string
when it has no space), i.e. `takeWhile (· ≠ ' ')` on the character list. -/
def cleanName (s : String) : String :=
  ⟨s.data.takeWhile (fun c => c ≠ ' ')⟩

/-- The `KNOWN_VERIFIED_SNAP_PACKAGES` set literal (insertion order; the
source lists `'vlc'` twice, which a JavaScript `Set` deduplicates — a list
`contains` check has the same membership semantics). -/
def KNOWN_VERIFIED_SNAP_PACKAGES : List String :=
  ["firefox", "thunderbird", "chromium", "vlc", "brave", "spotify", "code",
   "intellij-idea-community", "intellij-idea-ultimate", "pycharm-community",
   "pycharm-professional", "slack", "discord", "signal-desktop",
   "telegram-desktop", "zoom-client", "obsidian", "bitwarden", "blender",
   "gimp", "inkscape", "krita", "libreoffice", "obs-studio", "node", "go",
   "rustup", "ruby", "cmake", "docker", "kubectl", "steam", "retroarch",
   "vivaldi"]

/-- The module-level `snapVerifiedCache : Map<string, boolean>`, modelled as
an insertion-ordered association list. -/
abbrev SnapCache := List (String × Bool)

/-- `Map.get`: the value at the first (unique) matching key, if any. -/
def mapGet : SnapCache → String → Option Bool
  | [], _ => none
  | (k', v) :: rest, k => if k' == k then some v else mapGet rest k

/-- `Map.set`: overwrite the value of an existing key in place, otherwise
append the new entry (JavaScript `Map` insertion-order semantics). -/
def mapSet : SnapCache → String → Bool → SnapCache
  | [], k, v => [(k, v)]
  | (k', v') :: rest, k, v =>
    if k' == k then (k, v) :: rest else (k', v') :: mapSet rest k v

/-- Outcome of one HTTP interaction with the Snapcraft per-snap info
endpoint (the request is keyed by the canonical name placed in the URL).

* `transportError`: `fetch` or `response.json()` threw (network failure,
  5 s timeout abort, malformed JSON) — caught by the source's `try/catch`.
* `httpError`: `response.ok` was false.
* `ok validation`: a parsed body; `validation` is the value of
  `data.snap?.publisher?.validation`, `none` when the optional chain hits a
  missing `snap`/`publisher`/`validation` field. -/
inductive SnapResult where
  | transportError
  | httpError
  | ok (validation : Option String)
deriving DecidableEq, Repr

/-- The verdict the network path of `fetchSnapVerification` computes for an
input name: `false` on any failure, otherwise
`data.snap?.publisher?.validation === 'verified'`. -/
def snapVerdict (snet : String → SnapResult) (snapName : String) : Bool :=
  match snet (cleanName snapName) with
  | .transportError => false
  | .httpError => false
  | .ok validation => validation == some "verified"

/-- `fetchSnapVerification`, acting on the module-level `snapVerifiedCache`.
Returns the boolean result, the new cache, and the number of network
requests issued (`0` or `1`).  Note the source checks and updates the cache
under the *raw* input `snapName`; the qualifier stripping to `cleanName`
happens after the cache check and is used only to build the request URL. -/
def fetchSnapVerification (snet : String → SnapResult) (cache : SnapCache)
    (snapName : String) : Bool × SnapCache × Nat :=
  match mapGet cache snapName with
  | some b => (b, cache, 0)
  | none =>
    match snet (cleanName snapName) with
    | .transportError => (false, mapSet cache snapName false, 1)
    | .httpError => (false, mapSet cache snapName false, 1)
    | .ok validation =>
      let isV := validation == some "verified"
      (isV, mapSet cache snapName isV, 1)

/-- `isSnapVerified`: static-table check on the cleaned name, then the cache
fallback `snapVerifiedCache.get(cleanName) ?? snapVerifiedCache.get(snapName)
?? false` (`??` skips only nullish values, so a present `false` entry stops
the chain). -/
def isSnapVerified (cache : SnapCache) (snapName : String) : Bool :=
  let cn := cleanName snapName
  if KNOWN_VERIFIED_SNAP_PACKAGES.contains cn then
    true
  else
    match mapGet cache cn with
    | some b => b
    | none =>
      match mapGet cache snapName with
      | some b => b
      | none => false

/-- `[...new Set(snapPackages)]`: first-occurrence de-duplication preserving
encounter order. -/
def dedup : List String → List String
  | [] => []
  | a :: as => a :: dedup (as.filter (fun x => x ≠ a))
termination_by l => l.length
decreasing_by
  simp only [List.length_cons]
  exact Nat.lt_succ_of_le (List.length_filter_le _ _)

/-- The batch slicing `uniquePackages.slice(i, i + BATCH_SIZE)` of the
`for (let i = 0; i < uniquePackages.length; i += BATCH_SIZE)` loop with
`BATCH_SIZE = 5`: consecutive chunks of five, the last possibly shorter. -/
def chunks5 : List String → List (List String)
  | [] => []
  | a :: as => (a :: as).take 5 :: chunks5 ((a :: as).drop 5)
termination_by l => l.length
decreasing_by
  simp only [List.length_drop, List.length_cons]
  omega

/-- The batches `fetchAllSnapVerifications` issues for an input list. -/
def snapBatches (snapPackages : List String) : List (List String) :=
  chunks5 (dedup snapPackages)

/-- Processing of one package inside a batch: run `fetchSnapVerification`
and record its result in the `results` map under the raw package name.
Within a batch the requests run concurrently in the source, but all cache
reads happen synchronously before any response arrives and all cache writes
go to the distinct (de-duplicated) raw keys of the batch, so sequential
threading of the cache yields the same results and final state. -/
def snapStep (snet : String → SnapResult) :
    SnapCache × SnapCache → String → SnapCache × SnapCache :=
  fun rc pkg =>
    let r := fetchSnapVerification snet rc.2 pkg
    (mapSet rc.1 pkg r.1, r.2.1)

/-- `fetchAllSnapVerifications`: de-duplicate, then process batches of five
sequentially, returning the `results` map and the final snap cache. -/
def fetchAllSnapVerifications (snet : String → SnapResult) (cache : SnapCache)
    (snapPackages : List String) : SnapCache × SnapCache :=
  (snapBatches snapPackages).foldl
    (fun rc batch => batch.foldl (snapStep snet) rc) ([], cache)

/-- `clearVerificationCache`: reset `flathubVerifiedCache` to `null` and
clear `snapVerifiedCache`. -/
def clearVerificationCache : Option (List String) × SnapCache :=
  (none, [])

/-- The `KNOWN_UNFREE_PACKAGES` set literal of `src/lib/nixUnfree.ts`. -/
def KNOWN_UNFREE_PACKAGES : List String :=
  ["discord", "slack", "zoom-us", "teams", "skypeforlinux", "google-chrome",
   "vivaldi", "opera", "spotify", "steam", "heroic", "vscode", "sublime4",
   "jetbrains.idea-ultimate", "jetbrains.webstorm",
   "jetbrains.pycharm-professional", "nvidia-x11", "dropbox", "1password",
   "masterpdfeditor"]

/-- JavaScript `String.prototype.includes`: substring containment, decided
on the character lists. -/
def strIncludes (s sub : String) : Bool :=
  decide (sub.data <:+: s.data)

/-- `isUnfreePackage`: trim and lower-case the input, check exact set
membership, then fall back to the substring-containment scan over the
unfree table ("Nested packages like jetbrains.idea-ultimate"). -/
def isUnfreePackage (pkg : String) : Bool :=
  let cleanPkg := pkg.trim.toLower
  if KNOWN_UNFREE_PACKAGES.contains cleanPkg then true
  else KNOWN_UNFREE_PACKAGES.any (fun unfree => strIncludes cleanPkg unfree)

/-- The distribution tag (`DistroId` from `lib/data`, a module outside this
subsystem); the verification code compares it against the literals
`'flatpak'` and `'snap'` and treats every other tag uniformly by falling
through, so the remaining members are collapsed into `other`. -/
inductive DistroId where
  | flatpak
  | snap
  | other
deriving DecidableEq, Repr

/-- The verification-source tag returned by `getVerificationType`
(`'flathub' | 'snap'`, with `null` modelled as `none` outside). -/
inductive VerificationType where
  | flathub
  | snap
deriving DecidableEq, Repr

/-- The state flags of the `useVerification` hook. -/
structure ResolverState where
  isLoading : Bool
  hasError : Bool
  flathubLoaded : Bool
  snapLoaded : Bool
deriving DecidableEq, Repr

/-- The hook's initial state: `isLoading = true`, `hasError = false`, both
loaded flags `false`. -/
def initialResolverState : ResolverState :=
  ⟨true, false, false, false⟩

/-- The one-shot mount effect of `useVerification` (`fetchVerificationData`):
await the bulk fetch; on resolution set `flathubLoaded` and `snapLoaded`; on
rejection set `hasError` and `snapLoaded`; finally clear `isLoading`.
Returns the settled state together with the flathub cache it leaves behind. -/
def useVerificationMount (net : Nat → PageResult) (cache : Option (List String)) :
    ResolverState × Option (List String) :=
  match fetchFlathubVerifiedAppsEx net cache with
  | .ok (_, cache', _) =>
    ({ isLoading := false, hasError := false, flathubLoaded := true, snapLoaded := true },
     cache')
  | .error _ =>
    ({ isLoading := false, hasError := true, flathubLoaded := false, snapLoaded := true },
     cache)

/-- The hook's `isVerified(distro, packageName)` query, reading the state
flags and the module-level caches. -/
def isVerified (st : ResolverState) (fc : Option (List String)) (sc : SnapCache)
    (distro : DistroId) (packageName : String) : Bool :=
  if distro == .flatpak && st.flathubLoaded then
    isFlathubVerified fc packageName
  else if distro == .snap && st.snapLoaded then
    isSnapVerified sc packageName
  else
    false

/-- The hook's `getVerificationType(distro, packageName)` query. -/
def getVerificationType (st : ResolverState) (fc : Option (List String)) (sc : SnapCache)
    (distro : DistroId) (packageName : String) : Option VerificationType :=
  if distro == .flatpak && st.flathubLoaded && isFlathubVerified fc packageName then
    some .flathub
  else if distro == .snap && st.snapLoaded && isSnapVerified sc packageName then
    some .snap
  else
    none

/-- Two overlapping calls to `fetchFlathubVerifiedApps` on the same
module-level cache.  The cache test `flathubVerifiedCache !== null` is the
first statement of the function and the cache is assigned only after the
awaited pagination loop finishes, so when the second call starts before the
first completes both observe the initial cache: on a populated cache both
return it at once, and on an unpopulated cache each runs the full loop, the
later completion overwriting the cache.  Returns both result sets, the final
cache, and the total number of page requests issued. -/
def fetchFlathubTwiceConcurrently (net : Nat → PageResult) (cache : Option (List String)) :
    List String × List String × Option (List String) × Nat :=
  match cache with
  | some s => (s, s, some s, 0)
  | none =>
    let o1 := flathubLoop net 10 1 true [] []
    let o2 := flathubLoop net 10 1 true [] []
    (o1.acc, o2.acc, some o2.acc, o1.reqs.length + o2.reqs.length)

/-! ### Theorems -/

/-- C1: the claim asserts that the mount transition after a bulk-fetch
failure (HTTP 500 on page 1) ends with `hasError = true`, `sourceALoaded =
true`, `isVerified('flatpak', id) = false` for every `id`, and no raised
error.  On the code the last three parts hold but `hasError` remains
`false`: `fetchFlathubVerifiedApps` converts every failure into a logged
warning and resolves normally (`Except.isOk`), so the hook's `catch` — the
only writer of `hasError` — is unreachable, contradicting the hook's own
documentation of `hasError` ("Whether an error occurred during fetch").
This theorem evaluates the model at that failing input. -/
theorem C1_mount_http500_behavior :
    (useVerificationMount (fun _ => PageResult.httpError) none).1.hasError = false ∧
    (useVerificationMount (fun _ => PageResult.httpError) none).1.flathubLoaded = true ∧
    (useVerificationMount (fun _ => PageResult.httpError) none).1.snapLoaded = true ∧
    (useVerificationMount (fun _ => PageResult.httpError) none).1.isLoading = false ∧
    (∀ id, isVerified (useVerificationMount (fun _ => PageResult.httpError) none).1
        (useVerificationMount (fun _ => PageResult.httpError) none).2 [] .flatpak id = false) ∧
    (fetchFlathubVerifiedAppsEx (fun _ => PageResult.httpError) none).isOk = true := by
  refine ⟨rfl, rfl, rfl, rfl, fun id => rfl, rfl⟩

/-- C2 counterexample: the claim says the source-B (snap) static-table
lookup treats an identifier as present when it merely *contains* a table
entry as a substring.  The entry `"go"` is in the table and is a substring
of `"xgo"`, yet `isSnapVerified` (and the hook query on top of it) rejects
`"xgo"`: the snap lookup is an exact `Set.has` check on the cleaned name.
(The substring rule lives only in `isUnfreePackage` of `nixUnfree.ts`.) -/
theorem C2_counterexample :
    "go" ∈ KNOWN_VERIFIED_SNAP_PACKAGES ∧
    "go".data <:+: "xgo".data ∧
    isSnapVerified [] "xgo" = false ∧
    isVerified ⟨false, false, true, true⟩ (some []) [] .snap "xgo" = false := by
  refine ⟨by decide, ⟨['x'], [], by decide⟩, by decide, by decide⟩

/-- C2 as amended: the snap static-table lookup is an *exact* membership
test of the canonical (qualifier-stripped) identifier — shown here against
the empty per-item cache, so the table alone decides — while the
exact-or-substring containment rule the claim describes is implemented only
by the Nix unfree-package detector `isUnfreePackage`, whose result is true
exactly when the trimmed, lower-cased input contains some table entry as a
substring (exact matches being the reflexive case). -/
theorem C2_static_lookup_semantics (id : String) :
    (isSnapVerified [] id = true ↔ cleanName id ∈ KNOWN_VERIFIED_SNAP_PACKAGES) ∧
    (isUnfreePackage id = true ↔
      ∃ e ∈ KNOWN_UNFREE_PACKAGES, e.data <:+: id.trim.toLower.data) := by
  constructor
  · simp [isSnapVerified, mapGet]
  · simp only [isUnfreePackage, strIncludes]
    by_cases hc : KNOWN_UNFREE_PACKAGES.contains (id.trim.toLower) = true
    · rw [if_pos hc]
      have hm : id.trim.toLower ∈ KNOWN_UNFREE_PACKAGES := by
        simpa only [List.elem_eq_mem, decide_eq_true_eq] using hc
      exact ⟨fun _ => ⟨id.trim.toLower, hm, List.infix_rfl⟩, fun _ => rfl⟩
    · rw [if_neg hc, List.any_eq_true]
      constructor
      · rintro ⟨e, he, hi⟩
        exact ⟨e, he, of_decide_eq_true hi⟩
      · rintro ⟨e, he, hi⟩
        exact ⟨e, he, decide_eq_true hi⟩

/-- C3 counterexample: the claim asserts that `isVerified('snap', base +
' ' + suffix)` and `isVerified('snap', base)` agree in *every reachable
cache state*.  Reachable state: starting from the empty cache the code's own
per-item fetch, called with the qualified name `"foo --classic"` against a
source answering `validation = "verified"`, writes the entry under the raw
key `"foo --classic"`.  In that state the qualified query answers `true`
(via the raw-key fallback `?? snapVerifiedCache.get(snapName)`) while the
base query `"foo"` answers `false`. -/
theorem C3_counterexample :
    isSnapVerified
      (fetchSnapVerification (fun _ => SnapResult.ok (some "verified")) [] "foo --classic").2.1
      "foo --classic" = true ∧
    isSnapVerified
      (fetchSnapVerification (fun _ => SnapResult.ok (some "verified")) [] "foo --classic").2.1
      "foo" = false := by
  exact ⟨by decide, by decide⟩

/-- takeWhile over an append whose first part satisfies the predicate
throughout. -/
theorem takeWhile_append_of_all {p : Char → Bool} :
    ∀ (l1 l2 : List Char), (∀ x ∈ l1, p x = true) →
      (l1 ++ l2).takeWhile p = l1 ++ l2.takeWhile p
  | [], _, _ => rfl
  | a :: l1, l2, h => by
    have ha : p a = true := h a (by simp)
    simp only [List.cons_append, List.takeWhile_cons, ha, if_true]
    rw [takeWhile_append_of_all l1 l2 (fun x hx => h x (by simp [hx]))]

/-- A space-free identifier is its own canonical name. -/
theorem cleanName_of_no_space (base : String) (hb : ' ' ∉ base.data) :
    cleanName base = base := by
  simp only [cleanName]
  have hall : ∀ x ∈ base.data, (decide ¬(x = ' ')) = true := by
    intro x hx
    simp only [decide_eq_true_eq]
    intro hxeq
    exact hb (hxeq ▸ hx)
  rw [List.takeWhile_eq_self_iff.mpr hall]

/-- Appending a space-separated qualifier does not change the canonical
name. -/
theorem cleanName_append_qualifier (base suffix : String) (hb : ' ' ∉ base.data) :
    cleanName (base ++ " " ++ suffix) = base := by
  simp only [cleanName]
  have hdata : (base ++ " " ++ suffix).data = base.data ++ (' ' :: suffix.data) := by
    rw [String.data_append, String.data_append, List.append_assoc]
    rfl
  have hall : ∀ x ∈ base.data, (decide ¬(x = ' ')) = true := by
    intro x hx
    simp only [decide_eq_true_eq]
    intro hxeq
    exact hb (hxeq ▸ hx)
  rw [hdata, takeWhile_append_of_all _ _ hall]
  simp [List.takeWhile_cons]

/-- C3 as amended: qualifier stripping makes the two queries agree in every
cache state that holds no entry under the raw qualified identifier — in
particular the empty cache, and any state populated only through canonical
names.  (When the cache does hold an entry under the raw qualified name,
written when the per-item fetch is invoked with the qualified input, the
two queries can differ — see the counterexample.) -/
theorem C3_qualifier_stripping (base suffix : String) (c : SnapCache)
    (hb : ' ' ∉ base.data)
    (hq : mapGet c (base ++ " " ++ suffix) = none) :
    isSnapVerified c (base ++ " " ++ suffix) = isSnapVerified c base := by
  simp only [isSnapVerified, cleanName_append_qualifier base suffix hb,
    cleanName_of_no_space base hb]
  by_cases hk : KNOWN_VERIFIED_SNAP_PACKAGES.contains base = true
  · rw [if_pos hk, if_pos hk]
  · rw [if_neg hk, if_neg hk]
    cases hget : mapGet c base with
    | some b => rfl
    | none => rw [hq]

/-- Witness for the amended C3 at `base = "code"`, `suffix = "--classic"`
and the empty cache. -/
theorem C3_qualifier_stripping_witness :
    (' ' ∉ "code".data) ∧ (mapGet [] ("code" ++ " " ++ "--classic") = none) ∧
    isSnapVerified [] ("code" ++ " " ++ "--classic") = isSnapVerified [] "code" :=
  ⟨by decide, rfl, C3_qualifier_stripping "code" "--classic" [] (by decide) rfl⟩

/-- Setting a key makes it retrievable. -/
theorem mapGet_mapSet_self :
    ∀ (m : SnapCache) (k : String) (v : Bool), mapGet (mapSet m k v) k = some v
  | [], k, v => by simp [mapSet, mapGet]
  | (k', v') :: rest, k, v => by
    by_cases h : (k' == k) = true
    · simp [mapSet, mapGet, h]
    · simp only [mapSet, mapGet, h, Bool.false_eq_true, if_false]
      exact mapGet_mapSet_self rest k v

/-- Setting a key leaves other keys unchanged. -/
theorem mapGet_mapSet_ne :
    ∀ (m : SnapCache) (k k' : String) (v : Bool), k' ≠ k →
      mapGet (mapSet m k v) k' = mapGet m k'
  | [], k, k', v, hne => by
    have hkk : (k == k') = false := by
      simp only [beq_eq_false_iff_ne, ne_eq]
      intro he
      exact hne he.symm
    simp [mapSet, mapGet, hkk]
  | (k0, v0) :: rest, k, k', v, hne => by
    by_cases h : (k0 == k) = true
    · have hk0 : k0 = k := by simpa using h
      subst hk0
      have hkk : (k0 == k') = false := by
        simp only [beq_eq_false_iff_ne, ne_eq]
        intro he
        exact hne he.symm
      simp [mapSet, mapGet, hkk]
    · simp only [mapSet, h, Bool.false_eq_true, if_false, mapGet]
      by_cases h0 : (k0 == k') = true
      · simp [h0]
      · simp only [h0, Bool.false_eq_true, if_false]
        exact mapGet_mapSet_ne rest k k' v hne

/-- Setting an absent key appends it to the key sequence. -/
theorem mapSet_keys_of_miss :
    ∀ (m : SnapCache) (k : String) (v : Bool), mapGet m k = none →
      (mapSet m k v).map Prod.fst = m.map Prod.fst ++ [k]
  | [], k, v, _ => rfl
  | (k0, v0) :: rest, k, v, hmiss => by
    by_cases h : (k0 == k) = true
    · rw [mapGet, if_pos h] at hmiss
      exact absurd hmiss (by simp)
    · rw [mapGet, if_neg (by simpa using h)] at hmiss
      simp only [mapSet, h, Bool.false_eq_true, if_false, List.map_cons, List.cons_append,
        List.cons.injEq, true_and]
      exact mapSet_keys_of_miss rest k v hmiss

/-- On a cache miss the per-item fetch issues one request and records the
network verdict under the raw input key. -/
theorem fetchSnap_miss (snet : String → SnapResult) (c : SnapCache) (id : String)
    (hmiss : mapGet c id = none) :
    fetchSnapVerification snet c id
      = (snapVerdict snet id, mapSet c id (snapVerdict snet id), 1) := by
  simp only [fetchSnapVerification, hmiss, snapVerdict]
  cases snet (cleanName id) <;> rfl

/-- De-duplication preserves membership. -/
theorem mem_dedup : ∀ (l : List String) (x : String), x ∈ dedup l ↔ x ∈ l
  | [], x => by simp [dedup]
  | a :: as, x => by
    rw [dedup]
    simp only [List.mem_cons]
    constructor
    · rintro (rfl | hx)
      · exact Or.inl rfl
      · exact Or.inr (List.mem_of_mem_filter
          ((mem_dedup (as.filter (fun y => y ≠ a)) x).mp hx))
    · rintro (rfl | hx)
      · exact Or.inl rfl
      · by_cases hxa : x = a
        · exact Or.inl hxa
        · exact Or.inr ((mem_dedup _ x).mpr
            (List.mem_filter.mpr ⟨hx, by simpa using hxa⟩))
termination_by l _ => l.length
decreasing_by
  all_goals
    simp only [List.length_cons]
    exact Nat.lt_succ_of_le (List.length_filter_le _ _)

/-- De-duplication yields distinct elements. -/
theorem dedup_nodup : ∀ l : List String, (dedup l).Nodup
  | [] => by simp [dedup]
  | a :: as => by
    rw [dedup]
    refine List.nodup_cons.mpr ⟨?_, dedup_nodup _⟩
    intro hmem
    have hf := (mem_dedup _ a).mp hmem
    have := (List.mem_filter.mp hf).2
    simp at this
termination_by l => l.length
decreasing_by
  simp only [List.length_cons]
  exact Nat.lt_succ_of_le (List.length_filter_le _ _)

/-- The per-item fetch always leaves the cache holding, under the raw input
key, exactly the boolean it returns. -/
theorem fetchSnap_result_cached (snet : String → SnapResult) (c : SnapCache)
    (id : String) :
    mapGet (fetchSnapVerification snet c id).2.1 id
      = some (fetchSnapVerification snet c id).1 := by
  rw [fetchSnapVerification]
  cases hc : mapGet c id with
  | some b => simpa using hc
  | none => cases snet (cleanName id) <;> simp [mapGet_mapSet_self]

/-- C4 counterexample: the claim asserts the per-item fetch strips the
qualifier *first* and keys the cache by the canonical identifier, so that
two inputs differing only in a qualifier hit the same entry and cause at
most one request.  On the code the stripping happens after the cache check
and only for the URL: fetching `"code --classic"` leaves an entry keyed by
the raw string, the canonical key `"code"` stays absent, and a subsequent
fetch of `"code"` misses the cache and issues a second network request. -/
theorem C4_counterexample :
    (fetchSnapVerification (fun _ => SnapResult.ok (some "verified")) [] "code --classic").2.1
      = [("code --classic", true)] ∧
    mapGet (fetchSnapVerification (fun _ => SnapResult.ok (some "verified")) []
      "code --classic").2.1 "code" = none ∧
    (fetchSnapVerification (fun _ => SnapResult.ok (some "verified"))
      (fetchSnapVerification (fun _ => SnapResult.ok (some "verified")) []
        "code --classic").2.1 "code").2.2 = 1 := by
  exact ⟨by decide, by decide, by decide⟩

/-- C4 as amended: the per-item fetch consults and updates the cache keyed
by the *raw* input identifier; the canonical (whitespace-stripped) name is
used only to address the network request, whose verdict is recorded under
the raw key.  A cache hit on the raw key short-circuits with no I/O, so
repeating a call with the *identical* input issues no further request —
while inputs differing in a qualifier use distinct cache entries. -/
theorem C4_per_item_cache_keying (snet : String → SnapResult) (c : SnapCache)
    (id : String) :
    (mapGet c id = none →
      fetchSnapVerification snet c id
        = (snapVerdict snet id, mapSet c id (snapVerdict snet id), 1)) ∧
    (∀ b, mapGet c id = some b → fetchSnapVerification snet c id = (b, c, 0)) ∧
    ((fetchSnapVerification snet (fetchSnapVerification snet c id).2.1 id).2.2 = 0) := by
  refine ⟨?_, ?_, ?_⟩
  · intro hmiss
    simp only [fetchSnapVerification, hmiss, snapVerdict]
    cases snet (cleanName id) <;> rfl
  · intro b hb
    simp only [fetchSnapVerification, hb]
  · have hcached := fetchSnap_result_cached snet c id
    rw [fetchSnapVerification, hcached]

/-- Witness for the amended C4 at `id = "code --classic"`, the empty cache
and a source answering `validation = "verified"`: the miss records the
verdict under the raw key with one request, and the repeated identical call
issues none. -/
theorem C4_per_item_cache_keying_witness :
    (mapGet [] "code --classic" = none) ∧
    fetchSnapVerification (fun _ => SnapResult.ok (some "verified")) [] "code --classic"
      = (true, [("code --classic", true)], 1) ∧
    (fetchSnapVerification (fun _ => SnapResult.ok (some "verified"))
      (fetchSnapVerification (fun _ => SnapResult.ok (some "verified")) []
        "code --classic").2.1 "code --classic").2.2 = 0 := by
  refine ⟨rfl, ?_, ?_⟩
  · have h := (C4_per_item_cache_keying (fun _ => SnapResult.ok (some "verified")) []
      "code --classic").1 rfl
    rw [h]
    decide
  · exact (C4_per_item_cache_keying (fun _ => SnapResult.ok (some "verified")) []
      "code --classic").2.2

/-- C7: on a cache miss, every remote failure of the per-item lookup — a
transport error (thrown fetch/timeout/parse, caught by the `try/catch`), a
non-success HTTP status, or a malformed payload whose optional chain yields
no `validation` field — makes `fetchSnapVerification` record `false` in the
cache under the input and return `false`; the function is total in the
model (all throw sites sit inside the source's `try/catch`), so no error
reaches the caller. -/
theorem C7_per_item_failure_degrades (snet : String → SnapResult) (c : SnapCache)
    (id : String) (hmiss : mapGet c id = none)
    (hfail : snet (cleanName id) = .transportError ∨ snet (cleanName id) = .httpError ∨
             snet (cleanName id) = .ok none) :
    fetchSnapVerification snet c id = (false, mapSet c id false, 1) ∧
    mapGet (fetchSnapVerification snet c id).2.1 id = some false := by
  have heq : fetchSnapVerification snet c id = (false, mapSet c id false, 1) := by
    simp only [fetchSnapVerification, hmiss]
    rcases hfail with h | h | h <;> simp [h]
  refine ⟨heq, ?_⟩
  rw [heq]
  exact mapGet_mapSet_self c id false

/-- Witness for C7 at `id = "badsnap"`, the empty cache and a source
answering a non-success HTTP status. -/
theorem C7_per_item_failure_degrades_witness :
    (mapGet [] "badsnap" = none) ∧
    fetchSnapVerification (fun _ => SnapResult.httpError) [] "badsnap"
      = (false, [("badsnap", false)], 1) :=
  ⟨rfl, by
    have h := (C7_per_item_failure_degrades (fun _ => SnapResult.httpError) [] "badsnap" rfl
      (Or.inr (Or.inl rfl))).1
    rw [h]
    rfl⟩

/-- The batch slices reassemble to the de-duplicated input. -/
theorem chunks5_flatten : ∀ l : List String, (chunks5 l).flatten = l
  | [] => by simp [chunks5]
  | a :: as => by
    rw [chunks5]
    simp only [List.flatten_cons]
    rw [chunks5_flatten ((a :: as).drop 5), List.take_append_drop]
termination_by l => l.length
decreasing_by
  simp only [List.length_drop, List.length_cons]
  omega

/-- Every batch is nonempty and holds at most five identifiers. -/
theorem chunks5_mem : ∀ l : List String, ∀ b ∈ chunks5 l, b ≠ [] ∧ b.length ≤ 5
  | [] => by simp [chunks5]
  | a :: as => by
    rw [chunks5]
    intro b hb
    rcases List.mem_cons.mp hb with hb1 | hb2
    · subst hb1
      refine ⟨by simp, ?_⟩
      simp only [List.length_take]
      omega
    · exact chunks5_mem ((a :: as).drop 5) b hb2
termination_by l => l.length
decreasing_by
  simp only [List.length_drop, List.length_cons]
  omega

/-- Every batch except possibly the last holds exactly five identifiers. -/
theorem chunks5_dropLast :
    ∀ l : List String, ∀ b ∈ (chunks5 l).dropLast, b.length = 5
  | [] => by simp [chunks5]
  | a :: as => by
    rw [chunks5]
    cases hd : chunks5 ((a :: as).drop 5) with
    | nil => simp
    | cons c cs =>
      rw [List.dropLast_cons_of_ne_nil (by simp)]
      intro b hb
      rcases List.mem_cons.mp hb with hb1 | hb2
      · subst hb1
        have hne : (a :: as).drop 5 ≠ [] := by
          intro hnil
          rw [hnil] at hd
          simp [chunks5] at hd
        have hlen : 5 < (a :: as).length := by
          by_contra hle
          exact hne (List.drop_eq_nil_of_le (by omega))
        simp only [List.length_take]
        omega
      · rw [← hd] at hb2
        exact chunks5_dropLast ((a :: as).drop 5) b hb2
termination_by l => l.length
decreasing_by
  simp only [List.length_drop, List.length_cons]
  omega

/-- A twelve-element list is sliced into batches of sizes 5, 5, 2. -/
theorem chunks5_len12 (l : List String) (h : l.length = 12) :
    (chunks5 l).map List.length = [5, 5, 2] := by
  have h1 : l ≠ [] := by intro hnil; rw [hnil] at h; simp at h
  obtain ⟨a, as, rfl⟩ := List.exists_cons_of_ne_nil h1
  rw [chunks5]
  have h2 : ((a :: as).drop 5).length = 7 := by
    simp only [List.length_drop]
    omega
  have h2ne : (a :: as).drop 5 ≠ [] := by
    intro hnil; rw [hnil] at h2; simp at h2
  obtain ⟨b, bs, hbs⟩ := List.exists_cons_of_ne_nil h2ne
  rw [hbs] at h2 ⊢
  rw [chunks5]
  have h3 : ((b :: bs).drop 5).length = 2 := by
    simp only [List.length_drop]
    omega
  have h3ne : (b :: bs).drop 5 ≠ [] := by
    intro hnil; rw [hnil] at h3; simp at h3
  obtain ⟨d, ds, hds⟩ := List.exists_cons_of_ne_nil h3ne
  rw [hds] at h3 ⊢
  rw [chunks5]
  have h4 : ((d :: ds).drop 5).length = 0 := by
    simp only [List.length_drop]
    omega
  have h4nil : (d :: ds).drop 5 = [] := List.eq_nil_of_length_eq_zero h4
  rw [h4nil]
  simp only [chunks5, List.map_cons, List.map_nil, List.length_take]
  have hlb : (b :: bs).length = 7 := h2
  have hld : (d :: ds).length = 2 := h3
  simp only [h, hlb, hld]
  norm_num

/-- C5 counterexample: the claim asserts that two *concurrent* bulk-fetch
calls perform at most one network traversal.  Two calls that both begin
before either completes each see the unpopulated cache (the cache is only
assigned after the awaited loop finishes), so against a one-page source the
pair issues two page requests, not at most one. -/
theorem C5_counterexample :
    (fetchFlathubTwiceConcurrently (fun _ => PageResult.ok [] (some 1)) none).2.2.2 = 2 ∧
    ¬ (fetchFlathubTwiceConcurrently (fun _ => PageResult.ok [] (some 1)) none).2.2.2 ≤ 1 := by
  exact ⟨rfl, by decide⟩

/-- C5 as amended: sequential single-flight and idempotence hold.  A call on
a populated cache returns it unchanged with no page requests; every call
leaves the cache populated with exactly the set it returns; hence any later
call (under any network oracle) returns that same set with no I/O; and the
explicit clear operation is the reset to the unpopulated state.  (Two calls
that overlap in time each perform their own traversal — see the
counterexample.) -/
theorem C5_single_flight (net net2 : Nat → PageResult) (s : List String)
    (c : Option (List String)) :
    (fetchFlathubVerifiedApps net (some s) = (s, some s, [])) ∧
    ((fetchFlathubVerifiedApps net c).2.1 = some (fetchFlathubVerifiedApps net c).1) ∧
    (fetchFlathubVerifiedApps net2 (fetchFlathubVerifiedApps net c).2.1
       = ((fetchFlathubVerifiedApps net c).1,
          some (fetchFlathubVerifiedApps net c).1, [])) ∧
    (clearVerificationCache = (none, [])) := by
  refine ⟨rfl, ?_, ?_, rfl⟩
  · cases c <;> rfl
  · cases c <;> rfl

/-- The page-request log of the pagination loop: starting at `page` with
`page + fuel = 11` and `1 ≤ fuel`, the loop appends requests for the
consecutive pages `page, page + 1, …`, each with `per_page = 250`, and the
last requested page is at most `10`. -/
theorem flathubLoop_reqs (net : Nat → PageResult) :
    ∀ (fuel : Nat), ∀ (page : Nat) (hasMore : Bool) (acc : List String)
      (reqs : List (Nat × Nat)), page + fuel = 11 → 1 ≤ fuel →
      ∃ k, (flathubLoop net fuel page hasMore acc reqs).reqs
            = reqs ++ (List.range k).map (fun i => (page + i, 250)) ∧ page + k ≤ 11 := by
  intro fuel
  induction fuel with
  | zero => intro page hasMore acc reqs hpf hf; omega
  | succ fuel' ih =>
    intro page hasMore acc reqs hpf _
    rw [flathubLoop]
    cases hasMore with
    | false =>
      exact ⟨0, by simp, by omega⟩
    | true =>
      simp only [if_true]
      generalize net page = r
      cases r with
      | transportError => exact ⟨1, by simp [show List.range 1 = [0] from rfl], by omega⟩
      | httpError => exact ⟨1, by simp [show List.range 1 = [0] from rfl], by omega⟩
      | ok hits tp =>
        by_cases hcap : page + 1 > 10
        · simp only [hcap, if_true]
          exact ⟨1, by simp [show List.range 1 = [0] from rfl], by omega⟩
        · simp only [hcap, if_false]
          have hf' : 1 ≤ fuel' := by omega
          obtain ⟨k', hk', hle'⟩ :=
            ih (page + 1)
              (match tp with | some t => decide ((page : Int) < t) | none => false)
              (addHits acc hits) (reqs ++ [(page, 250)]) (by omega) hf'
          refine ⟨k' + 1, ?_, by omega⟩
          rw [hk', List.range_succ_eq_map]
          have hfun : ((fun i : Nat => (page + i, 250)) ∘ Nat.succ)
              = (fun i : Nat => (page + 1 + i, 250)) := by
            funext i
            simp only [Function.comp_apply]
            congr 1
            omega
          simp only [List.map_cons, List.map_map, hfun, List.append_assoc,
            List.cons_append, List.nil_append, Nat.add_zero]

/-- C6: the bulk-fetch pagination issues requests for consecutive pages
starting at page 1, each with `per_page = 250`, and stops after at most 10
page requests under every network oracle; against a source that always
reports more pages remain (`totalPages = 100`) it issues exactly the 10
requests for pages 1 through 10. -/
theorem C6_pagination_cap (net : Nat → PageResult) :
    (∃ k, k ≤ 10 ∧
      (fetchFlathubVerifiedApps net none).2.2
        = (List.range k).map (fun i => (1 + i, 250))) ∧
    (fetchFlathubVerifiedApps net none).2.2.length ≤ 10 ∧
    (fetchFlathubVerifiedApps (fun _ => PageResult.ok [] (some 100)) none).2.2
      = (List.range 10).map (fun i => (1 + i, 250)) := by
  obtain ⟨k, hk, hle⟩ := flathubLoop_reqs net 10 1 true [] [] (by omega) (by omega)
  have hreq : (fetchFlathubVerifiedApps net none).2.2
      = (List.range k).map (fun i => (1 + i, 250)) := by
    simpa [fetchFlathubVerifiedApps] using hk
  refine ⟨⟨k, by omega, hreq⟩, ?_, by decide⟩
  rw [hreq]
  simp
  omega

/-- Invariant of processing a run of distinct, not-yet-cached identifiers:
the results map gains exactly those identifiers as keys (in order), each
bound to the network verdict, and entries for other identifiers are
untouched. -/
theorem fold_snapStep_spec (snet : String → SnapResult) :
    ∀ (l : List String) (res c : SnapCache),
      l.Nodup →
      (∀ k ∈ l, mapGet c k = none) →
      (∀ k ∈ l, mapGet res k = none) →
      ((l.foldl (snapStep snet) (res, c)).1.map Prod.fst = res.map Prod.fst ++ l) ∧
      (∀ p ∈ l, mapGet (l.foldl (snapStep snet) (res, c)).1 p
        = some (snapVerdict snet p)) ∧
      (∀ p, p ∉ l → mapGet (l.foldl (snapStep snet) (res, c)).1 p = mapGet res p) := by
  intro l
  induction l with
  | nil =>
    intro res c _ _ _
    exact ⟨by simp, by simp, fun p _ => rfl⟩
  | cons pkg rest ih =>
    intro res c hnd hc hres
    have hmiss : mapGet c pkg = none := hc pkg (by simp)
    have hresmiss : mapGet res pkg = none := hres pkg (by simp)
    have hpkg_notin : pkg ∉ rest := (List.nodup_cons.mp hnd).1
    have hstep : (pkg :: rest).foldl (snapStep snet) (res, c)
        = rest.foldl (snapStep snet)
            (mapSet res pkg (snapVerdict snet pkg),
             mapSet c pkg (snapVerdict snet pkg)) := by
      rw [List.foldl_cons]
      simp only [snapStep]
      rw [fetchSnap_miss snet c pkg hmiss]
    have hc' : ∀ k ∈ rest, mapGet (mapSet c pkg (snapVerdict snet pkg)) k = none := by
      intro k hk
      have hne : k ≠ pkg := fun he => hpkg_notin (he ▸ hk)
      rw [mapGet_mapSet_ne c pkg k _ hne]
      exact hc k (by simp [hk])
    have hres' : ∀ k ∈ rest, mapGet (mapSet res pkg (snapVerdict snet pkg)) k = none := by
      intro k hk
      have hne : k ≠ pkg := fun he => hpkg_notin (he ▸ hk)
      rw [mapGet_mapSet_ne res pkg k _ hne]
      exact hres k (by simp [hk])
    obtain ⟨ihkeys, ihvals, ihout⟩ :=
      ih (mapSet res pkg (snapVerdict snet pkg)) (mapSet c pkg (snapVerdict snet pkg))
        (List.nodup_cons.mp hnd).2 hc' hres'
    refine ⟨?_, ?_, ?_⟩
    · rw [hstep, ihkeys, mapSet_keys_of_miss res pkg _ hresmiss]
      simp
    · intro p hp
      rcases List.mem_cons.mp hp with rfl | hp2
      · rw [hstep, ihout p hpkg_notin, mapGet_mapSet_self]
      · rw [hstep]
        exact ihvals p hp2
    · intro p hp
      have hpne : p ≠ pkg := fun he => hp (by simp [he])
      have hpnr : p ∉ rest := fun hr => hp (by simp [hr])
      rw [hstep, ihout p hpnr, mapGet_mapSet_ne res pkg p _ hpne]

/-- Sequential processing of the batches is processing of the flattened,
de-duplicated input. -/
theorem fetchAll_eq_fold (snet : String → SnapResult) (cache : SnapCache)
    (pkgs : List String) :
    fetchAllSnapVerifications snet cache pkgs
      = (dedup pkgs).foldl (snapStep snet) ([], cache) := by
  have hflat : (dedup pkgs).foldl (snapStep snet) ([], cache)
      = ((chunks5 (dedup pkgs)).flatten).foldl (snapStep snet) ([], cache) := by
    rw [chunks5_flatten]
  rw [fetchAllSnapVerifications, snapBatches, hflat, List.foldl_flatten]

/-- C8: the many-item fetch de-duplicates its input, slices the distinct
identifiers into consecutive batches of five (the last possibly smaller; a
twelve-element distinct input yields sizes 5, 5, 2 in order), and — started
on the empty per-item cache — returns a map whose keys are exactly the
distinct input identifiers in first-occurrence order, each bound to its
per-item verification verdict (the value a fresh single-item fetch
returns). -/
theorem C8_fetchAll_batching (snet : String → SnapResult) (pkgs : List String) :
    ((snapBatches pkgs).flatten = dedup pkgs) ∧
    (∀ b ∈ snapBatches pkgs, b ≠ [] ∧ b.length ≤ 5) ∧
    (∀ b ∈ (snapBatches pkgs).dropLast, b.length = 5) ∧
    ((dedup pkgs).length = 12 → (snapBatches pkgs).map List.length = [5, 5, 2]) ∧
    (∀ x, x ∈ dedup pkgs ↔ x ∈ pkgs) ∧
    ((fetchAllSnapVerifications snet [] pkgs).1.map Prod.fst = dedup pkgs) ∧
    (∀ p ∈ dedup pkgs,
      mapGet (fetchAllSnapVerifications snet [] pkgs).1 p = some (snapVerdict snet p)) ∧
    (∀ p, (fetchSnapVerification snet [] p).1 = snapVerdict snet p) := by
  have hspec := fold_snapStep_spec snet (dedup pkgs) [] []
    (dedup_nodup pkgs) (fun k _ => rfl) (fun k _ => rfl)
  refine ⟨chunks5_flatten _, chunks5_mem _, chunks5_dropLast _, chunks5_len12 _,
    fun x => mem_dedup pkgs x, ?_, ?_, ?_⟩
  · rw [fetchAll_eq_fold]
    simpa using hspec.1
  · intro p hp
    rw [fetchAll_eq_fold]
    exact hspec.2.1 p hp
  · intro p
    rw [fetchSnap_miss snet [] p rfl]

/-- Witness for C8 on twelve distinct identifiers and an HTTP-erroring
source: three batches of sizes 5, 5, 2. -/
theorem C8_fetchAll_batching_witness :
    ((dedup ["a1", "a2", "a3", "a4", "a5", "a6", "a7", "a8", "a9", "a10",
      "a11", "a12"]).length = 12) ∧
    (snapBatches ["a1", "a2", "a3", "a4", "a5", "a6", "a7", "a8", "a9", "a10",
      "a11", "a12"]).map List.length = [5, 5, 2] :=
  ⟨by simp [dedup],
    (C8_fetchAll_batching (fun _ => SnapResult.httpError)
      ["a1", "a2", "a3", "a4", "a5", "a6", "a7", "a8", "a9", "a10",
       "a11", "a12"]).2.2.2.1 (by simp [dedup])⟩

/-- The loaded flag the Resolver consults for a distro tag; tags other than
`flatpak`/`snap` have no flag and are always rejected by the queries. -/
def loadedFor (st : ResolverState) : DistroId → Bool
  | .flatpak => st.flathubLoaded
  | .snap => st.snapLoaded
  | .other => false

/-- C9: while the loaded flag for a distro tag is unset both queries answer
negatively (`false` / `none`), and for source A they also answer negatively
whenever the `BulkVerifiedSet` is still unpopulated (`null`), loaded flag
notwithstanding; both queries are total functions of the state in this
model — plain cache/table lookups that cannot block or raise. -/
theorem C9_unloaded_queries_negative (st : ResolverState) (fc : Option (List String))
    (sc : SnapCache) (distro : DistroId) (id : String) :
    (loadedFor st distro = false →
      isVerified st fc sc distro id = false ∧
      getVerificationType st fc sc distro id = none) ∧
    (distro = .flatpak → fc = none →
      isVerified st fc sc distro id = false ∧
      getVerificationType st fc sc distro id = none) := by
  constructor
  · intro hflag
    cases distro with
    | flatpak =>
      simp only [loadedFor] at hflag
      simp [isVerified, getVerificationType, hflag]
    | snap =>
      simp only [loadedFor] at hflag
      simp [isVerified, getVerificationType, hflag]
    | other =>
      simp [isVerified, getVerificationType]
  · rintro rfl rfl
    cases hl : st.flathubLoaded <;>
      simp [isVerified, getVerificationType, isFlathubVerified, hl]

/-- Witness for C9 in the initial Resolver state (nothing loaded, bulk set
unpopulated) at the tag `flatpak`. -/
theorem C9_unloaded_queries_negative_witness :
    (loadedFor initialResolverState DistroId.flatpak = false) ∧
    isVerified initialResolverState none [] .flatpak "org.mozilla.firefox" = false ∧
    getVerificationType initialResolverState none [] .flatpak "org.mozilla.firefox"
      = none :=
  ⟨rfl,
   ((C9_unloaded_queries_negative initialResolverState none [] .flatpak
      "org.mozilla.firefox").1 rfl).1,
   ((C9_unloaded_queries_negative initialResolverState none [] .flatpak
      "org.mozilla.firefox").1 rfl).2⟩

/-- C10: in every Resolver state, `getVerificationType` answers a tag
exactly when `isVerified` answers true, and the tag is `flathub` precisely
for the `flatpak` distro and `snap` precisely for the `snap` distro. -/
theorem C10_type_matches_verified (st : ResolverState) (fc : Option (List String))
    (sc : SnapCache) (distro : DistroId) (id : String) :
    ((getVerificationType st fc sc distro id).isSome = isVerified st fc sc distro id) ∧
    (getVerificationType st fc sc distro id = some .flathub ↔
      (distro = .flatpak ∧ isVerified st fc sc distro id = true)) ∧
    (getVerificationType st fc sc distro id = some .snap ↔
      (distro = .snap ∧ isVerified st fc sc distro id = true)) := by
  cases distro with
  | flatpak =>
    cases hl : st.flathubLoaded <;>
      cases hv : isFlathubVerified fc id <;>
        simp [isVerified, getVerificationType, hl, hv]
  | snap =>
    cases hl : st.snapLoaded <;>
      cases hv : isSnapVerified sc id <;>
        simp [isVerified, getVerificationType, hl, hv]
  | other =>
    simp [isVerified, getVerificationType]

end Tuxmate
